import Mathlib

/-!
Verification of the VeloQR core (src/rust-qr/src/lib.rs): the MRZ text
parser and the QR decoding entry point.  Rust strings are modelled as
lists of Unicode scalar values (`List Char`) together with their UTF-8
byte lengths, because the source indexes and slices strings by byte
position, which can abort (panic) when a slice boundary falls inside a
multi-byte character.  Fallible Rust functions are modelled with
`Option` (`none` = panic) or with the three-valued `PResult`
(ok / error / trap) at the API boundary.  Machine integers are `Nat`
with explicit `% 2 ^ 32` where u32 overflow matters.
-/

namespace VeloQR

/-- Rust strings as lists of Unicode scalar values. -/
abbrev RStr := List Char

/-- Convert a Lean string literal into the model representation. -/
def rstr (s : String) : RStr := s.toList

/-- Number of bytes of the UTF-8 encoding of a character. -/
def utf8Len (c : Char) : Nat :=
  if c.toNat < 128 then 1
  else if c.toNat < 2048 then 2
  else if c.toNat < 65536 then 3
  else 4

/-- UTF-8 byte length of a string, i.e. Rust's `str::len`. -/
def byteLen : RStr → Nat
  | [] => 0
  | c :: cs => utf8Len c + byteLen cs

/-- Drop the first `n` bytes of a string.  Returns `none` (Rust: panic)
when `n` is not a character boundary. -/
def byteDrop : RStr → Nat → Option RStr
  | s, 0 => some s
  | [], _ + 1 => none
  | c :: cs, n + 1 =>
    if utf8Len c ≤ n + 1 then byteDrop cs (n + 1 - utf8Len c) else none

/-- Take the first `n` bytes of a string.  Returns `none` (Rust: panic)
when `n` is not a character boundary or exceeds the byte length. -/
def byteTake : RStr → Nat → Option RStr
  | _, 0 => some []
  | [], _ + 1 => none
  | c :: cs, n + 1 =>
    if utf8Len c ≤ n + 1 then (byteTake cs (n + 1 - utf8Len c)).map (c :: ·)
    else none

/-- Rust byte slicing `s[a..b]`: panics (`none`) unless `a ≤ b` and both
ends are character boundaries within the string. -/
def byteSlice (s : RStr) (a b : Nat) : Option RStr :=
  if a ≤ b then (byteDrop s a).bind (fun t => byteTake t (b - a)) else none

/-- The Unicode White_Space property, as used by Rust's `char::is_whitespace`. -/
def rustIsWS (c : Char) : Bool :=
  (9 ≤ c.toNat && c.toNat ≤ 13) || c.toNat = 32 || c.toNat = 133 ||
  c.toNat = 160 || c.toNat = 5760 ||
  (8192 ≤ c.toNat && c.toNat ≤ 8202) || c.toNat = 8232 ||
  c.toNat = 8233 || c.toNat = 8239 || c.toNat = 8287 || c.toNat = 12288

/-- Rust's `str::trim`: strip whitespace from both ends. -/
def trimWS (s : RStr) : RStr :=
  ((s.dropWhile rustIsWS).reverse.dropWhile rustIsWS).reverse

/-- Rust's `str::replace` with a one-character pattern and one-character
replacement. -/
def replaceChar (a b : Char) (s : RStr) : RStr :=
  s.map (fun c => if c = a then b else c)

/-- Rust's `str::trim_end_matches('<')`. -/
def trimEndLt (s : RStr) : RStr :=
  (s.reverse.dropWhile (fun c => c = '<')).reverse

/-- Split at every newline character, keeping empty pieces. -/
def splitNL : RStr → List RStr
  | [] => [[]]
  | '\n' :: rest => [] :: splitNL rest
  | c :: rest =>
    match splitNL rest with
    | [] => [[c]]
    | l :: ls => (c :: l) :: ls

/-- Drop one trailing carriage return, as Rust's `str::lines` does per line. -/
def stripCR (l : RStr) : RStr :=
  if l.getLast? = some '\r' then l.dropLast else l

/-- Rust's `str::lines`: split on newlines, never yielding a final empty
line for a trailing newline, and strip one trailing `\r` per line. -/
def rustLines (s : RStr) : List RStr :=
  if s = [] then []
  else
    (if s.getLast? = some '\n' then (splitNL s).dropLast else splitNL s).map stripCR

/-- ASCII uppercasing (Lean's `Char.toUpper`), modelling Rust's
`str::to_uppercase`.  Rust additionally applies Unicode case mappings to
non-ASCII letters; the inputs considered in this development only contain
characters on which the two agree (ASCII, and non-ASCII characters that
are already uppercase). -/
def rustUpper (s : RStr) : RStr := s.map Char.toUpper

/-- One line of `parse_mrz_text` cleanup: `l.trim().to_uppercase().replace(" ", "")`. -/
def normalizeLine (l : RStr) : RStr :=
  (rustUpper (trimWS l)).filter (fun c => c ≠ ' ')

/-- The cleaned line list of `parse_mrz_text`: normalized lines that are
nonempty and at least 20 bytes long. -/
def usableLines (s : RStr) : List RStr :=
  ((rustLines s).map normalizeLine).filter
    (fun l => !l.isEmpty && decide (20 ≤ byteLen l))

/-- Definition following the spec words for comparison: the 20-character
threshold of the line filter read as a count of characters rather than of
UTF-8 bytes. -/
def usableLinesCharSpec (s : RStr) : List RStr :=
  ((rustLines s).map normalizeLine).filter
    (fun l => !l.isEmpty && decide (20 ≤ l.length))

/-- Outcome of a Rust function: success, a returned error, or an abnormal
termination (panic / abort), written `trap`. -/
inductive PResult (ε α : Type) where
  | ok (a : α)
  | err (e : ε)
  | trap
deriving DecidableEq

/-- Errors of `parse_mrz_from_lines`, one constructor per source message. -/
inductive MRZParseErr where
  /-- "No MRZ lines found" -/
  | noLines
  /-- "Invalid MRZ format: n lines" -/
  | invalidFormat (n : Nat)
  /-- "TDk requires n lines" -/
  | requiresCount (doc : RStr) (n : Nat)
deriving DecidableEq

/-- Errors of `parse_mrz_text`, one constructor per source message. -/
inductive MRZTextErr where
  /-- "No valid MRZ lines found" -/
  | noValidLines
  /-- "Failed to parse MRZ: e" -/
  | parseFailed (e : MRZParseErr)
deriving DecidableEq

/-- The `MRZResult` struct of the source, with `f32` confidence modelled
as the exactly representable rational it denotes. -/
structure MRZResult where
  document_type : RStr
  document_number : RStr
  date_of_birth : RStr
  date_of_expiry : RStr
  nationality : RStr
  sex : RStr
  surname : RStr
  given_names : RStr
  optional_data : RStr
  issuing_country : RStr
  raw_mrz : List RStr
  confidence : ℚ
deriving DecidableEq

/-- Pad or trim a line to the specified byte length (`pad_line`).  A long
line is byte-truncated (`line[..length]`, which panics off a character
boundary); a short one is left-aligned in a field of `length` characters,
i.e. right-padded with spaces by `format!`. -/
def pad_line (line : RStr) (length : Nat) : Option RStr :=
  if length ≤ byteLen line then byteSlice line 0 length
  else some (line ++ List.replicate (length - line.length) ' ')

/-- Extract a field from a line (`extract_field`): empty when `start` is
past the end, otherwise the byte slice `[start, min stop len)`. -/
def extract_field (line : RStr) (start stop : Nat) : Option RStr :=
  if byteLen line ≤ start then some []
  else byteSlice line start (min stop (byteLen line))

/-- Rust's `str::split("<<")`: leftmost non-overlapping split on two
consecutive filler characters. -/
def splitLtLt : RStr → List RStr
  | '<' :: '<' :: rest => [] :: splitLtLt rest
  | c :: rest =>
    match splitLtLt rest with
    | [] => [[c]]
    | l :: ls => (c :: l) :: ls
  | [] => [[]]

/-- Per-segment cleanup of `extract_names`:
`s.replace('<', " ").trim().replace('0', "O")`. -/
def cleanSeg (s : RStr) : RStr :=
  replaceChar '0' 'O' (trimWS (replaceChar '<' ' ' s))

/-- Extract surname and given names from a name field (`extract_names`). -/
def extract_names (name_field : RStr) : RStr × RStr :=
  let parts := splitLtLt name_field
  (match parts.get? 0 with
   | some s => cleanSeg s
   | none => [],
   match parts.get? 1 with
   | some s => cleanSeg s
   | none => [])

/-- Body of `parse_td1` after the line-count guard; `none` models a panic
in any of the byte-slicing steps. -/
def td1Build (l1 l2 l3 : RStr) : Option MRZResult :=
  (pad_line l1 30).bind fun line1 =>
  (pad_line l2 30).bind fun line2 =>
  (pad_line l3 30).bind fun line3 =>
  (extract_field line1 5 14).bind fun dn =>
  (extract_field line1 2 5).bind fun ic =>
  (extract_field line2 0 6).bind fun dob =>
  (extract_field line2 7 8).bind fun sx =>
  (extract_field line2 8 14).bind fun doe =>
  (extract_field line2 15 18).bind fun na =>
  (extract_field line1 15 30).bind fun od =>
  some
    { document_type := rstr "TD1"
      document_number := trimEndLt dn
      date_of_birth := replaceChar 'O' '0' dob
      date_of_expiry := doe
      nationality := na
      sex := sx
      surname := (extract_names line3).1
      given_names := (extract_names line3).2
      optional_data := trimEndLt od
      issuing_country := ic
      raw_mrz := [line1, line2, line3]
      confidence := mkRat 3 4 }

/-- Parse TD1 format (ID cards: 3 lines of 30 characters). -/
def parse_td1 (lines : List RStr) : PResult MRZParseErr MRZResult :=
  match lines with
  | [l1, l2, l3] =>
    match td1Build l1 l2 l3 with
    | some r => .ok r
    | none => .trap
  | _ => .err (.requiresCount (rstr "TD1") 3)

/-- Body of `parse_td2` after the line-count guard. -/
def td2Build (l1 l2 : RStr) : Option MRZResult :=
  (pad_line l1 36).bind fun line1 =>
  (pad_line l2 36).bind fun line2 =>
  (extract_field line1 5 36).bind fun nf =>
  (extract_field line1 2 5).bind fun ic =>
  (extract_field line2 0 9).bind fun dn =>
  (extract_field line2 10 13).bind fun na =>
  (extract_field line2 13 19).bind fun dob =>
  (extract_field line2 20 21).bind fun sx =>
  (extract_field line2 21 27).bind fun doe =>
  (extract_field line2 28 35).bind fun od =>
  some
    { document_type := rstr "TD2"
      document_number := trimEndLt dn
      date_of_birth := replaceChar 'O' '0' dob
      date_of_expiry := doe
      nationality := na
      sex := sx
      surname := (extract_names nf).1
      given_names := (extract_names nf).2
      optional_data := trimEndLt od
      issuing_country := ic
      raw_mrz := [line1, line2]
      confidence := mkRat 3 4 }

/-- Parse TD2 format (official documents: 2 lines of 36 characters). -/
def parse_td2 (lines : List RStr) : PResult MRZParseErr MRZResult :=
  match lines with
  | [l1, l2] =>
    match td2Build l1 l2 with
    | some r => .ok r
    | none => .trap
  | _ => .err (.requiresCount (rstr "TD2") 2)

/-- Body of `parse_td3` after the line-count guard. -/
def td3Build (l1 l2 : RStr) : Option MRZResult :=
  (pad_line l1 44).bind fun line1 =>
  (pad_line l2 44).bind fun line2 =>
  (extract_field line1 5 44).bind fun nf =>
  (extract_field line1 2 5).bind fun ic =>
  (extract_field line2 0 9).bind fun dn =>
  (extract_field line2 10 13).bind fun na =>
  (extract_field line2 13 19).bind fun dob =>
  (extract_field line2 20 21).bind fun sx =>
  (extract_field line2 21 27).bind fun doe =>
  (extract_field line2 28 42).bind fun od =>
  some
    { document_type := rstr "TD3"
      document_number := trimEndLt dn
      date_of_birth := replaceChar 'O' '0' dob
      date_of_expiry := doe
      nationality := na
      sex := sx
      surname := (extract_names nf).1
      given_names := (extract_names nf).2
      optional_data := trimEndLt od
      issuing_country := ic
      raw_mrz := [line1, line2]
      confidence := mkRat 3 4 }

/-- Parse TD3 format (passports: 2 lines of 44 characters). -/
def parse_td3 (lines : List RStr) : PResult MRZParseErr MRZResult :=
  match lines with
  | [l1, l2] =>
    match td3Build l1 l2 with
    | some r => .ok r
    | none => .trap
  | _ => .err (.requiresCount (rstr "TD3") 2)

/-- The three ICAO 9303 layouts. -/
inductive MRZFormat where
  | td1
  | td2
  | td3
deriving DecidableEq

/-- Fixed line width of each format. -/
def MRZFormat.width : MRZFormat → Nat
  | .td1 => 30
  | .td2 => 36
  | .td3 => 44

/-- Dispatch to the parser of a given format. -/
def tdParse : MRZFormat → List RStr → PResult MRZParseErr MRZResult
  | .td1 => parse_td1
  | .td2 => parse_td2
  | .td3 => parse_td3

/-- Offsets (0-based, half-open) of `dateOfBirth` in the date line. -/
def dobRange : MRZFormat → Nat × Nat
  | .td1 => (0, 6)
  | _ => (13, 19)

/-- Offsets (0-based, half-open) of `dateOfExpiry` in the date line. -/
def doeRange : MRZFormat → Nat × Nat
  | .td1 => (8, 14)
  | _ => (21, 27)

/-- Parse MRZ lines based on format (`parse_mrz_from_lines`): dispatch on
the line count, with the first line's byte length separating TD3 from TD2. -/
def parse_mrz_from_lines (lines : List RStr) : PResult MRZParseErr MRZResult :=
  if lines.isEmpty then .err .noLines
  else if lines.length = 2 then
    if 40 ≤ byteLen (lines.headD []) then parse_td3 lines else parse_td2 lines
  else if lines.length = 3 then parse_td1 lines
  else .err (.invalidFormat lines.length)

/-- Wrap a line-level parse outcome into the text-level error type, as
`parse_mrz_text` does with its `map_err`. -/
def liftTd : PResult MRZParseErr MRZResult → PResult MRZTextErr MRZResult
  | .ok r => .ok r
  | .err e => .err (.parseFailed e)
  | .trap => .trap

/-- Parse MRZ text lines to extract structured data (`parse_mrz_text`).
Serialization of the successful result is modelled as the identity. -/
def parse_mrz_text (s : RStr) : PResult MRZTextErr MRZResult :=
  let lines := usableLines s
  if lines.isEmpty then .err .noValidLines
  else liftTd (parse_mrz_from_lines lines)

/-- A dyadic rational `m * 2 ^ e`, the exact value of an IEEE-754 binary32
number.  Every intermediate value of the grayscale formula is dyadic, so
`f32` arithmetic (correctly rounded at each step) is modelled exactly with
integer arithmetic. -/
structure Dya where
  m : ℤ
  e : ℤ
deriving DecidableEq

/-- Exact product of two dyadics (`f32` multiplication before rounding). -/
def Dya.mulD (a b : Dya) : Dya := ⟨a.m * b.m, a.e + b.e⟩

/-- Exact sum of two dyadics (`f32` addition before rounding). -/
def Dya.addD (a b : Dya) : Dya :=
  let e := min a.e b.e
  ⟨a.m * 2 ^ (a.e - e).toNat + b.m * 2 ^ (b.e - e).toNat, e⟩

/-- Round `m / 2 ^ s` to the nearest integer, ties to even (`s ≥ 1`). -/
def roundHalfEvenDiv (m : ℕ) (s : ℕ) : ℕ :=
  let d := 2 ^ s
  let q := m / d
  let r := m % d
  if r < d / 2 then q
  else if d / 2 < r then q + 1
  else if q % 2 = 0 then q else q + 1

/-- Number of bits of `n`, computed with explicit fuel so that it is
structural (and hence kernel-reducible); the fuel of 128 covers every
magnitude occurring in this development. -/
def bitLenAux : Nat → Nat → Nat
  | 0, _ => 0
  | f + 1, n => if n = 0 then 0 else bitLenAux f (n / 2) + 1

/-- Number of bits of `n` (0 for 0, and `⌊log2 n⌋ + 1` for `n ≥ 1`). -/
def bitLen (n : Nat) : Nat := bitLenAux 128 n

/-- Round a positive dyadic to 24 significand bits: IEEE-754 binary32
round-to-nearest-even, exact for the normal, non-overflowing magnitudes
that occur in the grayscale formula.  Non-positive inputs (only the exact
zero occurs here) round to zero. -/
def f32roundD (x : Dya) : Dya :=
  if x.m ≤ 0 then ⟨0, 0⟩
  else
    let mn := x.m.toNat
    let b := bitLen mn
    if b ≤ 24 then x
    else ⟨(roundHalfEvenDiv mn (b - 24) : ℤ), x.e + (b - 24)⟩

/-- Round `a / b` to the nearest integer, ties to even. -/
def roundRatHE (a b : ℕ) : ℕ :=
  let q := a / b
  let r := a % b
  if 2 * r < b then q
  else if b < 2 * r then q + 1
  else if q % 2 = 0 then q else q + 1

/-- The binary32 value nearest to `n / d`, as the dyadic
`roundRatHE (n * 2 ^ k) d * 2 ^ (-k)`; the scaling `k` is chosen per
constant so the significand lands in `[2 ^ 23, 2 ^ 24)`. -/
def f32OfRat (n d k : ℕ) : Dya := ⟨(roundRatHE (n * 2 ^ k) d : ℤ), -(k : ℤ)⟩

/-- The `f32` literal `0.299` (`0.299 ∈ [2 ^ 23 / 2 ^ 25, 2 ^ 24 / 2 ^ 25)`). -/
def fl299 : Dya := f32OfRat 299 1000 25

/-- The `f32` literal `0.587` (`0.587 ∈ [2 ^ 23 / 2 ^ 24, 2 ^ 24 / 2 ^ 24)`). -/
def fl587 : Dya := f32OfRat 587 1000 24

/-- The `f32` literal `0.114` (`0.114 ∈ [2 ^ 23 / 2 ^ 27, 2 ^ 24 / 2 ^ 27)`). -/
def fl114 : Dya := f32OfRat 114 1000 27

/-- A byte value as an (exactly representable) `f32`. -/
def ofNatD (n : ℕ) : Dya := ⟨(n : ℤ), 0⟩

/-- Truncate a dyadic toward zero to a natural number (`as u8` before
saturation). -/
def truncD (x : Dya) : ℕ :=
  if x.m ≤ 0 then 0
  else if 0 ≤ x.e then x.m.toNat * 2 ^ x.e.toNat
  else x.m.toNat / 2 ^ (-x.e).toNat

/-- The per-pixel grayscale computation of `rgba_to_gray`:
`(0.299 * r + 0.587 * g + 0.114 * b) as u8` evaluated in `f32` (left
associated, each operation correctly rounded) and then truncated toward
zero with saturation by the `as u8` cast. -/
def lumaF32 (r g b : ℕ) : ℕ :=
  let p1 := f32roundD (Dya.mulD fl299 (ofNatD r))
  let p2 := f32roundD (Dya.mulD fl587 (ofNatD g))
  let p3 := f32roundD (Dya.mulD fl114 (ofNatD b))
  let s := f32roundD (Dya.addD (f32roundD (Dya.addD p1 p2)) p3)
  min 255 (truncD s)

/-- Definition following the spec words for comparison: per-pixel
grayscale `round(0.299 * R + 0.587 * G + 0.114 * B)`, written over
integers (`round (x / 1000) = (2 * x + 1000) / 2000` for `x ≥ 0`). -/
def lumaSpecRound (r g b : ℕ) : ℕ :=
  (2 * (299 * r + 587 * g + 114 * b) + 1000) / 2000

/-- Error of `rgba_to_gray`: "Invalid image data length: expected e, got a". -/
inductive GrayError where
  | invalidLength (expected actual : Nat)
deriving DecidableEq

/-- One more than the largest u32; u32 arithmetic wraps modulo this. -/
def U32 : Nat := 4294967296

/-- One pixel read of the conversion loop: `rgba[idx]`, `rgba[idx + 1]`,
`rgba[idx + 2]` with `idx = ((y * width + x) * 4)` in u32 arithmetic;
`none` models the out-of-bounds panic. -/
def lumaPixel (rgba : List Nat) (w y x : Nat) : Option Nat :=
  let idx := ((y * w + x) * 4) % U32
  rgba[idx]?.bind fun r =>
  rgba[idx + 1]?.bind fun g =>
  rgba[idx + 2]?.bind fun b =>
  some (lumaF32 r g b)

/-- The inner `for x in 0..width` loop of `rgba_to_gray`, building one row
of the grayscale image; the remaining-count argument starts at `w`. -/
def buildRow (rgba : List Nat) (w y : Nat) : Nat → Option (List Nat)
  | 0 => some []
  | n + 1 =>
    (lumaPixel rgba w y (w - (n + 1))).bind fun px =>
    (buildRow rgba w y n).map fun rest => px :: rest

/-- The outer `for y in 0..height` loop of `rgba_to_gray`; the
remaining-count argument starts at `h`. -/
def buildRows (rgba : List Nat) (w h : Nat) : Nat → Option (List (List Nat))
  | 0 => some []
  | n + 1 =>
    (buildRow rgba w (h - (n + 1)) w).bind fun row =>
    (buildRows rgba w h n).map fun rest => row :: rest

/-- Convert RGBA image data to grayscale (`rgba_to_gray`).  The length
check compares against `width * height * 4` computed in u32 arithmetic,
as the source does; rows are the grayscale pixels in row-major order. -/
def rgba_to_gray (rgba : List Nat) (width height : Nat) :
    PResult GrayError (List (List Nat)) :=
  let expected := (width * height * 4) % U32
  if rgba.length ≠ expected then .err (.invalidLength expected rgba.length)
  else
    match buildRows rgba width height height with
    | some rows => .ok rows
    | none => .trap

/-- A candidate grid reported by the external detector (rqrr): its bounds
in image space and the outcome of `grid.decode()` (`none` = decode
failure). -/
structure Grid where
  bounds : List (ℚ × ℚ)
  decoded : Option (Nat × RStr)
deriving DecidableEq

/-- The `QRCodeResult` struct of the source. -/
structure QRCodeResult where
  data : RStr
  version : Nat
  bounds : List (ℚ × ℚ)
deriving DecidableEq

/-- The per-grid step of the decoding loop: a successfully decoded grid
yields a result with its bounds taken verbatim; a failed grid is skipped. -/
def gridResult (g : Grid) : Option QRCodeResult :=
  g.decoded.map fun vc => { data := vc.2, version := vc.1, bounds := g.bounds }

/-- Errors of `decode_qr_from_image`: "Failed to convert image: e". -/
inductive QRDecodeErr where
  | convertFailed (e : GrayError)
deriving DecidableEq

/-- Decode QR codes from RGBA image data (`decode_qr_from_image`).  The
external grid detector is a parameter; serialization of the result list
is modelled as the identity. -/
def decode_qr_from_image (detect : List (List Nat) → List Grid)
    (image_data : List Nat) (width height : Nat) :
    PResult QRDecodeErr (List QRCodeResult) :=
  match rgba_to_gray image_data width height with
  | .err e => .err (.convertFailed e)
  | .trap => .trap
  | .ok gray => .ok ((detect gray).filterMap gridResult)

/-- Modelled from the spec: a rectangular region of the frame scanned by
the region-tiling fallback, which is not present in the source under
`src/` (its `decode_qr_from_image` performs only the standard pass). -/
structure Region where
  x : Nat
  y : Nat
  rw : Nat
  rh : Nat
deriving DecidableEq

/-- Modelled from the spec: the full frame, scanned at scale 1 by the
standard pass. -/
def fullRegion (w h : Nat) : Region := ⟨0, 0, w, h⟩

/-- Modelled from the spec: the 4 overlapping fallback regions in a 2x2
layout, region extent two thirds of the frame, step one third, in
row-major order, clipped to the frame. -/
def fallbackRegions (w h : Nat) : List Region :=
  let rw := 2 * w / 3
  let rh := 2 * h / 3
  let sx := w / 3
  let sy := h / 3
  [(0, 0), (0, 1), (1, 0), (1, 1)].map fun rc =>
    let ox := rc.2 * sx
    let oy := rc.1 * sy
    ⟨ox, oy, min rw (w - ox), min rh (h - oy)⟩

/-- Modelled from the spec: the ordered upscale factors of the fallback. -/
def fallbackScales : List ℚ := [mkRat 3 2, 2, mkRat 5 2]

/-- Modelled from the spec: remap a detection from tile space back to
frame space, `original = tile_coord / scale + region_offset`. -/
def remapResult (r : Region) (sc : ℚ) (q : QRCodeResult) : QRCodeResult :=
  { q with bounds := q.bounds.map fun p => (p.1 / sc + r.x, p.2 / sc + r.y) }

/-- Modelled from the spec: append newly found results, discarding any
whose payload was already recorded. -/
def dedupAppend (acc found : List QRCodeResult) : List QRCodeResult :=
  found.foldl (fun a q => if a.any (fun q2 => q2.data == q.data) then a else a ++ [q]) acc

/-- Modelled from the spec: the fallback scan loop over (region, scale)
pairs, terminating as soon as the accumulated result list is non-empty. -/
def scanLoop (det : Region → ℚ → List QRCodeResult) :
    List (Region × ℚ) → List QRCodeResult → List QRCodeResult
  | [], acc => acc
  | (rg, sc) :: rest, acc =>
    let acc2 := dedupAppend acc ((det rg sc).map (remapResult rg sc))
    if acc2.isEmpty then scanLoop det rest acc2 else acc2

/-- Modelled from the spec: the fallback iteration order, regions in
row-major order, then scales ascending. -/
def fallbackPairs (w h : Nat) : List (Region × ℚ) :=
  (fallbackRegions w h).flatMap fun rg => fallbackScales.map fun sc => (rg, sc)

/-- Modelled from the spec: the QR detection entry point with the
region-tiling fallback.  The external detector+decoder is a parameter
taking a region and an upscale factor; the standard pass submits the full
frame at scale 1.  On an empty standard pass, frames narrower or shorter
than 400 pixels return the empty list without entering the fallback. -/
def detect_with_fallback (det : Region → ℚ → List QRCodeResult) (w h : Nat) :
    List QRCodeResult :=
  let std := det (fullRegion w h) 1
  if std.isEmpty then
    if w < 400 ∨ h < 400 then []
    else scanLoop det (fallbackPairs w h) []
  else std

/-- The ICAO specimen TD3 input of the spec round-trip property, two lines
joined by a newline. -/
def c1in : RStr :=
  rstr "P<UTOERIKSSON<<ANNA<MARIA<<<<<<<<<<<<<<<<<<<\nL898902C36UTO7408122F1204159ZE184226B<<<<<10"

/-- The record `parse_mrz_text` produces on `c1in`. -/
def c1rec : MRZResult :=
  { document_type := rstr "TD3"
    document_number := rstr "L898902C3"
    date_of_birth := rstr "740812"
    date_of_expiry := rstr "120415"
    nationality := rstr "UTO"
    sex := rstr "F"
    surname := rstr "ERIKSSON"
    given_names := rstr "ANNA MARIA"
    optional_data := rstr "ZE184226B"
    issuing_country := rstr "UTO"
    raw_mrz := [rstr "P<UTOERIKSSON<<ANNA<MARIA<<<<<<<<<<<<<<<<<<<",
                rstr "L898902C36UTO7408122F1204159ZE184226B<<<<<10"]
    confidence := mkRat 3 4 }

/-- A single normalized line of ten two-byte characters: 20 UTF-8 bytes
but only 10 characters, separating the byte-count and character-count
readings of the line filter. -/
def c3in : RStr := rstr "ÉÉÉÉÉÉÉÉÉÉ"

/-- A TD3-classified input whose first line is 45 bytes long with a
two-byte character straddling byte offset 44, the truncation boundary. -/
def c5in : RStr :=
  rstr "AAAAAAAAAAAAAAAAAAAAAAAAAAAAAAAAAAAAAAAAAAAÉ\nAAAAAAAAAAAAAAAAAAAAAAAAAAAAAAAAAAAAAAAAAAAA"

/-- Three 25-character lines: a TD1 input whose lines are shorter than the
30-character format width and therefore get padded. -/
def c6in : RStr :=
  rstr "AAAAAAAAAAAAAAAAAAAAAAAAA\nAAAAAAAAAAAAAAAAAAAAAAAAA\nAAAAAAAAAAAAAAAAAAAAAAAAA"

/-- The record `parse_mrz_text` produces on `c6in`. -/
def c6rec : MRZResult :=
  { document_type := rstr "TD1"
    document_number := rstr "AAAAAAAAA"
    date_of_birth := rstr "AAAAAA"
    date_of_expiry := rstr "AAAAAA"
    nationality := rstr "AAA"
    sex := rstr "A"
    surname := rstr "AAAAAAAAAAAAAAAAAAAAAAAAA"
    given_names := rstr ""
    optional_data := rstr "AAAAAAAAAA     "
    issuing_country := rstr "AAA"
    raw_mrz := [rstr "AAAAAAAAAAAAAAAAAAAAAAAAA     ",
                rstr "AAAAAAAAAAAAAAAAAAAAAAAAA     ",
                rstr "AAAAAAAAAAAAAAAAAAAAAAAAA     "]
    confidence := mkRat 3 4 }

/-- The three usable lines of `c6in`. -/
def c6lines : List RStr :=
  [rstr "AAAAAAAAAAAAAAAAAAAAAAAAA",
   rstr "AAAAAAAAAAAAAAAAAAAAAAAAA",
   rstr "AAAAAAAAAAAAAAAAAAAAAAAAA"]

/-- Three 25-character TD1 lines used to instantiate the date-field
theorem. -/
def c7lines : List RStr :=
  [rstr "AAAAAAAAAAAAAAAAAAAAAAAAA",
   rstr "AAAAAAAAAAAAAAAAAAAAAAAAA",
   rstr "AAAAAAAAAAAAAAAAAAAAAAAAA"]

/-- The record `parse_td1` produces on `c7lines`. -/
def c7rec : MRZResult :=
  { document_type := rstr "TD1"
    document_number := rstr "AAAAAAAAA"
    date_of_birth := rstr "AAAAAA"
    date_of_expiry := rstr "AAAAAA"
    nationality := rstr "AAA"
    sex := rstr "A"
    surname := rstr "AAAAAAAAAAAAAAAAAAAAAAAAA"
    given_names := rstr ""
    optional_data := rstr "AAAAAAAAAA     "
    issuing_country := rstr "AAA"
    raw_mrz := [rstr "AAAAAAAAAAAAAAAAAAAAAAAAA     ",
                rstr "AAAAAAAAAAAAAAAAAAAAAAAAA     ",
                rstr "AAAAAAAAAAAAAAAAAAAAAAAAA     "]
    confidence := mkRat 3 4 }

theorem utf8Len_pos (c : Char) : 1 ≤ utf8Len c := by
  unfold utf8Len
  split_ifs <;> omega

theorem length_le_byteLen (s : RStr) : s.length ≤ byteLen s := by
  induction s with
  | nil => simp [byteLen]
  | cons c cs ih =>
    have := utf8Len_pos c
    simp only [byteLen, List.length_cons]
    omega

theorem byteDrop_zero (l : RStr) : byteDrop l 0 = some l := by
  cases l <;> rfl

theorem byteTake_spec :
    ∀ (l : RStr) (n : Nat) (nl : RStr),
      byteTake l n = some nl → byteLen nl = n ∧ ∃ rest, l = nl ++ rest := by
  intro l
  induction l with
  | nil =>
    intro n nl h
    cases n with
    | zero =>
      simp only [byteTake, Option.some.injEq] at h
      subst h
      exact ⟨rfl, [], rfl⟩
    | succ m => simp [byteTake] at h
  | cons c cs ih =>
    intro n nl h
    cases n with
    | zero =>
      simp only [byteTake, Option.some.injEq] at h
      subst h
      exact ⟨rfl, c :: cs, rfl⟩
    | succ m =>
      rw [byteTake] at h
      by_cases hc : utf8Len c ≤ m + 1
      · rw [if_pos hc, Option.map_eq_some'] at h
        obtain ⟨nl2, h1, h2⟩ := h
        obtain ⟨hlen, rest, hrest⟩ := ih _ _ h1
        subst h2
        refine ⟨by simp only [byteLen]; omega, rest, by simp [hrest]⟩
      · rw [if_neg hc] at h
        exact absurd h (by simp)

theorem pad_line_spec {l : RStr} {w : Nat} {nl : RStr} (h : pad_line l w = some nl) :
    (w ≤ byteLen l ∧ byteLen nl = w ∧ ∃ rest, l = nl ++ rest) ∨
    (byteLen l < w ∧ nl = l ++ List.replicate (w - l.length) ' ' ∧ nl.length = w) := by
  unfold pad_line at h
  by_cases hw : w ≤ byteLen l
  · rw [if_pos hw] at h
    unfold byteSlice at h
    rw [if_pos (Nat.zero_le w), byteDrop_zero] at h
    simp only [Option.some_bind, Nat.sub_zero] at h
    obtain ⟨hlen, rest, hrest⟩ := byteTake_spec l w nl h
    exact Or.inl ⟨hw, hlen, rest, hrest⟩
  · rw [if_neg hw] at h
    simp only [Option.some.injEq] at h
    have hlb := length_le_byteLen l
    refine Or.inr ⟨by omega, h.symm, ?_⟩
    rw [← h]
    simp only [List.length_append, List.length_replicate]
    omega

theorem parse_td3_ok {lines : List RStr} {r : MRZResult} (h : parse_td3 lines = .ok r) :
    ∃ l1 l2 line1 line2 nf ic dn na dob sx doe od,
      lines = [l1, l2] ∧
      pad_line l1 44 = some line1 ∧ pad_line l2 44 = some line2 ∧
      extract_field line1 5 44 = some nf ∧ extract_field line1 2 5 = some ic ∧
      extract_field line2 0 9 = some dn ∧ extract_field line2 10 13 = some na ∧
      extract_field line2 13 19 = some dob ∧ extract_field line2 20 21 = some sx ∧
      extract_field line2 21 27 = some doe ∧ extract_field line2 28 42 = some od ∧
      r = { document_type := rstr "TD3", document_number := trimEndLt dn,
            date_of_birth := replaceChar 'O' '0' dob, date_of_expiry := doe,
            nationality := na, sex := sx,
            surname := (extract_names nf).1, given_names := (extract_names nf).2,
            optional_data := trimEndLt od, issuing_country := ic,
            raw_mrz := [line1, line2], confidence := mkRat 3 4 } := by
  rcases lines with _ | ⟨l1, _ | ⟨l2, _ | ⟨l3, rest⟩⟩⟩
  · simp [parse_td3] at h
  · simp [parse_td3] at h
  case cons.cons.nil =>
    rw [parse_td3] at h
    cases e : td3Build l1 l2 with
    | none => rw [e] at h; simp at h
    | some r0 =>
      rw [e] at h
      simp only [PResult.ok.injEq] at h
      subst h
      simp only [td3Build, Option.bind_eq_some, Option.some.injEq] at e
      obtain ⟨line1, h1, line2, h2, nf, h3, ic, h4, dn, h5, na, h6, dob, h7, sx, h8,
        doe, h9, od, h10, hrec⟩ := e
      exact ⟨l1, l2, line1, line2, nf, ic, dn, na, dob, sx, doe, od, rfl,
        h1, h2, h3, h4, h5, h6, h7, h8, h9, h10, hrec.symm⟩
  · simp [parse_td3] at h

theorem parse_td2_ok {lines : List RStr} {r : MRZResult} (h : parse_td2 lines = .ok r) :
    ∃ l1 l2 line1 line2 nf ic dn na dob sx doe od,
      lines = [l1, l2] ∧
      pad_line l1 36 = some line1 ∧ pad_line l2 36 = some line2 ∧
      extract_field line1 5 36 = some nf ∧ extract_field line1 2 5 = some ic ∧
      extract_field line2 0 9 = some dn ∧ extract_field line2 10 13 = some na ∧
      extract_field line2 13 19 = some dob ∧ extract_field line2 20 21 = some sx ∧
      extract_field line2 21 27 = some doe ∧ extract_field line2 28 35 = some od ∧
      r = { document_type := rstr "TD2", document_number := trimEndLt dn,
            date_of_birth := replaceChar 'O' '0' dob, date_of_expiry := doe,
            nationality := na, sex := sx,
            surname := (extract_names nf).1, given_names := (extract_names nf).2,
            optional_data := trimEndLt od, issuing_country := ic,
            raw_mrz := [line1, line2], confidence := mkRat 3 4 } := by
  rcases lines with _ | ⟨l1, _ | ⟨l2, _ | ⟨l3, rest⟩⟩⟩
  · simp [parse_td2] at h
  · simp [parse_td2] at h
  case cons.cons.nil =>
    rw [parse_td2] at h
    cases e : td2Build l1 l2 with
    | none => rw [e] at h; simp at h
    | some r0 =>
      rw [e] at h
      simp only [PResult.ok.injEq] at h
      subst h
      simp only [td2Build, Option.bind_eq_some, Option.some.injEq] at e
      obtain ⟨line1, h1, line2, h2, nf, h3, ic, h4, dn, h5, na, h6, dob, h7, sx, h8,
        doe, h9, od, h10, hrec⟩ := e
      exact ⟨l1, l2, line1, line2, nf, ic, dn, na, dob, sx, doe, od, rfl,
        h1, h2, h3, h4, h5, h6, h7, h8, h9, h10, hrec.symm⟩
  · simp [parse_td2] at h

theorem parse_td1_ok {lines : List RStr} {r : MRZResult} (h : parse_td1 lines = .ok r) :
    ∃ l1 l2 l3 line1 line2 line3 dn ic dob sx doe na od,
      lines = [l1, l2, l3] ∧
      pad_line l1 30 = some line1 ∧ pad_line l2 30 = some line2 ∧
      pad_line l3 30 = some line3 ∧
      extract_field line1 5 14 = some dn ∧ extract_field line1 2 5 = some ic ∧
      extract_field line2 0 6 = some dob ∧ extract_field line2 7 8 = some sx ∧
      extract_field line2 8 14 = some doe ∧ extract_field line2 15 18 = some na ∧
      extract_field line1 15 30 = some od ∧
      r = { document_type := rstr "TD1", document_number := trimEndLt dn,
            date_of_birth := replaceChar 'O' '0' dob, date_of_expiry := doe,
            nationality := na, sex := sx,
            surname := (extract_names line3).1, given_names := (extract_names line3).2,
            optional_data := trimEndLt od, issuing_country := ic,
            raw_mrz := [line1, line2, line3], confidence := mkRat 3 4 } := by
  rcases lines with _ | ⟨l1, _ | ⟨l2, _ | ⟨l3, _ | ⟨l4, rest⟩⟩⟩⟩
  · simp [parse_td1] at h
  · simp [parse_td1] at h
  · simp [parse_td1] at h
  case cons.cons.cons.nil =>
    rw [parse_td1] at h
    cases e : td1Build l1 l2 l3 with
    | none => rw [e] at h; simp at h
    | some r0 =>
      rw [e] at h
      simp only [PResult.ok.injEq] at h
      subst h
      simp only [td1Build, Option.bind_eq_some, Option.some.injEq] at e
      obtain ⟨line1, h1, line2, h2, line3, h3, dn, h4, ic, h5, dob, h6, sx, h7,
        doe, h8, na, h9, od, h10, hrec⟩ := e
      exact ⟨l1, l2, l3, line1, line2, line3, dn, ic, dob, sx, doe, na, od, rfl,
        h1, h2, h3, h4, h5, h6, h7, h8, h9, h10, hrec.symm⟩
  · simp [parse_td1] at h

theorem cleanSeg_nil : cleanSeg [] = [] := rfl

/-- C1: on the specimen TD3 input, `parse_mrz_text` does not return
`sex = "M"` as claimed: the raw character at offset 20 of the second line
is `F`, and the parser copies it verbatim, so `sex = "F"`. -/
theorem c1_sex_cex :
    parse_mrz_text c1in = .ok c1rec ∧ c1rec.sex = rstr "F" ∧ rstr "F" ≠ rstr "M" := by
  decide

/-- C1 (amended): on the two-line TD3 specimen input, `parse_mrz_text`
succeeds with documentType "TD3", issuingCountry "UTO", surname
"ERIKSSON", givenNames "ANNA MARIA", documentNumber "L898902C3",
nationality "UTO", dateOfBirth "740812", sex "F" (the raw character at
offset 20), dateOfExpiry "120415", and confidence 0.75. -/
theorem c1_td3_example :
    parse_mrz_text c1in = .ok c1rec ∧
    c1rec.document_type = rstr "TD3" ∧
    c1rec.issuing_country = rstr "UTO" ∧
    c1rec.surname = rstr "ERIKSSON" ∧
    c1rec.given_names = rstr "ANNA MARIA" ∧
    c1rec.document_number = rstr "L898902C3" ∧
    c1rec.nationality = rstr "UTO" ∧
    c1rec.date_of_birth = rstr "740812" ∧
    c1rec.sex = rstr "F" ∧
    c1rec.date_of_expiry = rstr "120415" ∧
    c1rec.confidence = 3 / 4 := by
  refine ⟨by decide, by decide, by decide, by decide, by decide, by decide, by decide,
    by decide, by decide, by decide, ?_⟩
  show mkRat 3 4 = 3 / 4
  rw [Rat.mkRat_eq_div]
  norm_num

/-- C3: the normalization filter counts UTF-8 bytes, not characters: a
single line of ten two-byte characters (20 bytes, 10 characters) is kept
by the code, which therefore reports an unsupported line count of 1
instead of the `NoValidLines` the claim predicts for an input with no
line of at least 20 characters. -/
theorem c3_charcount_cex :
    usableLinesCharSpec c3in = [] ∧
    parse_mrz_text c3in = .err (.parseFailed (.invalidFormat 1)) ∧
    (PResult.err (MRZTextErr.parseFailed (.invalidFormat 1)) :
        PResult MRZTextErr MRZResult) ≠ .err .noValidLines := by
  decide

/-- C3 (amended): with lengths measured in UTF-8 bytes, `parse_mrz_text`
fails with `NoValidLines` when no usable line remains, fails with the
unsupported-line-count error when the usable line count is neither 2 nor
3, dispatches 3 usable lines to the TD1 parser, 2 usable lines with a
first line of at least 40 bytes to the TD3 parser, and 2 usable lines
with a shorter first line to the TD2 parser. -/
theorem c3_classification (s : RStr) :
    (usableLines s = [] → parse_mrz_text s = .err .noValidLines) ∧
    (∀ lns, usableLines s = lns → lns ≠ [] → lns.length ≠ 2 → lns.length ≠ 3 →
      parse_mrz_text s = .err (.parseFailed (.invalidFormat lns.length))) ∧
    (∀ l1 l2 l3, usableLines s = [l1, l2, l3] →
      parse_mrz_text s = liftTd (parse_td1 [l1, l2, l3])) ∧
    (∀ l1 l2, usableLines s = [l1, l2] → 40 ≤ byteLen l1 →
      parse_mrz_text s = liftTd (parse_td3 [l1, l2])) ∧
    (∀ l1 l2, usableLines s = [l1, l2] → byteLen l1 < 40 →
      parse_mrz_text s = liftTd (parse_td2 [l1, l2])) := by
  refine ⟨?_, ?_, ?_, ?_, ?_⟩
  · intro h
    simp [parse_mrz_text, h]
  · intro lns hl h0 h2 h3
    have hne : lns.isEmpty = false := by
      cases lns
      · exact absurd rfl h0
      · rfl
    simp only [parse_mrz_text, hl, hne, Bool.false_eq_true, if_false]
    simp only [parse_mrz_from_lines, hne, Bool.false_eq_true, if_false, h2, h3, if_false,
      liftTd]
  · intro l1 l2 l3 hl
    simp [parse_mrz_text, hl, parse_mrz_from_lines]
  · intro l1 l2 hl hge
    simp [parse_mrz_text, hl, parse_mrz_from_lines, hge]
  · intro l1 l2 hl hlt
    simp [parse_mrz_text, hl, parse_mrz_from_lines, Nat.not_le.mpr hlt]

/-- C3 (witness): each branch of the classification theorem at a concrete
input. -/
theorem c3_witness :
    parse_mrz_text (rstr "TOO SHORT") = .err .noValidLines ∧
    parse_mrz_text (rstr "AAAAAAAAAAAAAAAAAAAAAAAAA") =
      .err (.parseFailed (.invalidFormat 1)) ∧
    parse_mrz_text
        (rstr "AAAAAAAAAAAAAAAAAAAAAAAAA\nAAAAAAAAAAAAAAAAAAAAAAAAA\nAAAAAAAAAAAAAAAAAAAAAAAAA") =
      liftTd (parse_td1 [rstr "AAAAAAAAAAAAAAAAAAAAAAAAA", rstr "AAAAAAAAAAAAAAAAAAAAAAAAA",
        rstr "AAAAAAAAAAAAAAAAAAAAAAAAA"]) ∧
    parse_mrz_text
        (rstr "P<UTOERIKSSON<<ANNA<MARIA<<<<<<<<<<<<<<<<<<<\nL898902C36UTO7408122F1204159ZE184226B<<<<<10") =
      liftTd (parse_td3 [rstr "P<UTOERIKSSON<<ANNA<MARIA<<<<<<<<<<<<<<<<<<<",
        rstr "L898902C36UTO7408122F1204159ZE184226B<<<<<10"]) ∧
    parse_mrz_text (rstr "AAAAAAAAAAAAAAAAAAAAAAAAA\nAAAAAAAAAAAAAAAAAAAAAAAAA") =
      liftTd (parse_td2 [rstr "AAAAAAAAAAAAAAAAAAAAAAAAA", rstr "AAAAAAAAAAAAAAAAAAAAAAAAA"]) := by
  refine ⟨(c3_classification _).1 (by decide),
    (c3_classification _).2.1 [rstr "AAAAAAAAAAAAAAAAAAAAAAAAA"] (by decide) (by decide)
      (by decide) (by decide),
    (c3_classification _).2.2.1 _ _ _ (by decide),
    (c3_classification _).2.2.2.1 _ _ (by decide) (by decide),
    (c3_classification _).2.2.2.2 _ _ (by decide) (by decide)⟩

/-- C5: `parse_mrz_text` is not total on inputs with non-ASCII lines: on
`c5in` the TD3 truncation `line[..44]` falls inside a two-byte character
and the code panics instead of returning a record or a categorized
error. -/
theorem c5_nonascii_trap : parse_mrz_text c5in = .trap := by decide

/-- C6: the width normalization pads short lines with the space character
of `format!`, not with the MRZ filler `<`: the 25-character TD1 line ends
up padded with five spaces in `rawLines`. -/
theorem c6_space_padding_cex :
    parse_mrz_text c6in = .ok c6rec ∧
    c6rec.raw_mrz.getD 0 [] = rstr "AAAAAAAAAAAAAAAAAAAAAAAAA     " ∧
    c6rec.raw_mrz.getD 0 [] ≠ rstr "AAAAAAAAAAAAAAAAAAAAAAAAA<<<<<" := by
  decide

/-- C6 (amended): for every successful parse, `rawLines` are exactly the
width-normalized lines: a line of at least the format's byte width (30
for TD1, 36 for TD2, 44 for TD3) is truncated to a prefix of exactly that
byte length, and a shorter line is right-padded with the space character
to exactly that many characters. -/
theorem c6_width_normalization (fmt : MRZFormat) (lines : List RStr) (r : MRZResult)
    (h : tdParse fmt lines = .ok r) :
    r.raw_mrz.length = lines.length ∧
    ∀ i, i < lines.length →
      ∃ nl, pad_line (lines.getD i []) fmt.width = some nl ∧
        r.raw_mrz.getD i [] = nl ∧
        ((fmt.width ≤ byteLen (lines.getD i []) ∧ byteLen nl = fmt.width ∧
            ∃ rest, lines.getD i [] = nl ++ rest) ∨
          (byteLen (lines.getD i []) < fmt.width ∧
            nl = lines.getD i [] ++ List.replicate (fmt.width - (lines.getD i []).length) ' ' ∧
            nl.length = fmt.width)) := by
  cases fmt with
  | td1 =>
    obtain ⟨l1, l2, l3, line1, line2, line3, dn, ic, dob, sx, doe, na, od,
      hlines, h1, h2, h3, _, _, _, _, _, _, _, hrec⟩ := parse_td1_ok h
    subst hlines
    subst hrec
    refine ⟨rfl, ?_⟩
    intro i hi
    rcases i with _ | _ | _ | j
    · exact ⟨line1, h1, rfl, pad_line_spec h1⟩
    · exact ⟨line2, h2, rfl, pad_line_spec h2⟩
    · exact ⟨line3, h3, rfl, pad_line_spec h3⟩
    · simp at hi
      omega
  | td2 =>
    obtain ⟨l1, l2, line1, line2, nf, ic, dn, na, dob, sx, doe, od,
      hlines, h1, h2, _, _, _, _, _, _, _, _, hrec⟩ := parse_td2_ok h
    subst hlines
    subst hrec
    refine ⟨rfl, ?_⟩
    intro i hi
    rcases i with _ | _ | j
    · exact ⟨line1, h1, rfl, pad_line_spec h1⟩
    · exact ⟨line2, h2, rfl, pad_line_spec h2⟩
    · simp at hi
      omega
  | td3 =>
    obtain ⟨l1, l2, line1, line2, nf, ic, dn, na, dob, sx, doe, od,
      hlines, h1, h2, _, _, _, _, _, _, _, _, hrec⟩ := parse_td3_ok h
    subst hlines
    subst hrec
    refine ⟨rfl, ?_⟩
    intro i hi
    rcases i with _ | _ | j
    · exact ⟨line1, h1, rfl, pad_line_spec h1⟩
    · exact ⟨line2, h2, rfl, pad_line_spec h2⟩
    · simp at hi
      omega

/-- C6 (witness): the width-normalization theorem applied to a concrete
successful TD1 parse, at line index 0. -/
theorem c6_witness :
    ∃ nl, pad_line (c6lines.getD 0 []) MRZFormat.td1.width = some nl ∧
      c6rec.raw_mrz.getD 0 [] = nl ∧
      ((MRZFormat.td1.width ≤ byteLen (c6lines.getD 0 []) ∧
          byteLen nl = MRZFormat.td1.width ∧ ∃ rest, c6lines.getD 0 [] = nl ++ rest) ∨
        (byteLen (c6lines.getD 0 []) < MRZFormat.td1.width ∧
          nl = c6lines.getD 0 [] ++
            List.replicate (MRZFormat.td1.width - (c6lines.getD 0 []).length) ' ' ∧
          nl.length = MRZFormat.td1.width)) :=
  (c6_width_normalization .td1 c6lines c6rec (by decide)).2 0 (by decide)

/-- C7: in every format, a successful parse takes `dateOfBirth` from the
format's offsets in the date line with every letter O replaced by digit
0, while `dateOfExpiry` is the substring at its offsets verbatim, with no
such replacement. -/
theorem c7_date_corrections (fmt : MRZFormat) (lines : List RStr) (r : MRZResult)
    (h : tdParse fmt lines = .ok r) :
    ∃ dline f g,
      pad_line (lines.getD 1 []) fmt.width = some dline ∧
      extract_field dline (dobRange fmt).1 (dobRange fmt).2 = some f ∧
      r.date_of_birth = replaceChar 'O' '0' f ∧
      extract_field dline (doeRange fmt).1 (doeRange fmt).2 = some g ∧
      r.date_of_expiry = g := by
  cases fmt with
  | td1 =>
    obtain ⟨l1, l2, l3, line1, line2, line3, dn, ic, dob, sx, doe, na, od,
      hlines, h1, h2, h3, h4, h5, h6, h7, h8, h9, h10, hrec⟩ := parse_td1_ok h
    subst hlines
    subst hrec
    exact ⟨line2, dob, doe, h2, h6, rfl, h8, rfl⟩
  | td2 =>
    obtain ⟨l1, l2, line1, line2, nf, ic, dn, na, dob, sx, doe, od,
      hlines, h1, h2, h3, h4, h5, h6, h7, h8, h9, h10, hrec⟩ := parse_td2_ok h
    subst hlines
    subst hrec
    exact ⟨line2, dob, doe, h2, h7, rfl, h9, rfl⟩
  | td3 =>
    obtain ⟨l1, l2, line1, line2, nf, ic, dn, na, dob, sx, doe, od,
      hlines, h1, h2, h3, h4, h5, h6, h7, h8, h9, h10, hrec⟩ := parse_td3_ok h
    subst hlines
    subst hrec
    exact ⟨line2, dob, doe, h2, h7, rfl, h9, rfl⟩

/-- C7 (witness): the date-correction theorem applied to a concrete
successful TD1 parse. -/
theorem c7_witness :
    ∃ dline f g,
      pad_line (c7lines.getD 1 []) MRZFormat.td1.width = some dline ∧
      extract_field dline (dobRange .td1).1 (dobRange .td1).2 = some f ∧
      c7rec.date_of_birth = replaceChar 'O' '0' f ∧
      extract_field dline (doeRange .td1).1 (doeRange .td1).2 = some g ∧
      c7rec.date_of_expiry = g :=
  c7_date_corrections .td1 c7lines c7rec (by decide)

/-- C8: the name field is split on the two-character delimiter; the
surname is the first segment and the given names the second (empty when
absent), each segment having fillers replaced by spaces, being trimmed,
and having digit 0 corrected to letter O; in particular "J0HN" yields
"JOHN". -/
theorem c8_name_splitting :
    (∀ nf : RStr,
      extract_names nf =
        (cleanSeg ((splitLtLt nf).getD 0 []), cleanSeg ((splitLtLt nf).getD 1 []))) ∧
    extract_names (rstr "J0HN") = (rstr "JOHN", rstr "") := by
  constructor
  · intro nf
    rcases e : splitLtLt nf with _ | ⟨a, _ | ⟨b, t⟩⟩
    · simp [extract_names, e, cleanSeg_nil]
    · simp [extract_names, e, cleanSeg_nil]
    · simp [extract_names, e]
  · decide

theorem lumaPixel_some {rgba : List Nat} {w y x : Nat}
    (h : ((y * w + x) * 4) % U32 + 2 < rgba.length) :
    ∃ v, lumaPixel rgba w y x = some v := by
  obtain ⟨r2, hr⟩ : ∃ a, rgba[((y * w + x) * 4) % U32]? = some a :=
    ⟨_, List.getElem?_eq_getElem (by omega)⟩
  obtain ⟨g2, hg⟩ : ∃ a, rgba[((y * w + x) * 4) % U32 + 1]? = some a :=
    ⟨_, List.getElem?_eq_getElem (by omega)⟩
  obtain ⟨b2, hb⟩ : ∃ a, rgba[((y * w + x) * 4) % U32 + 2]? = some a :=
    ⟨_, List.getElem?_eq_getElem (by omega)⟩
  exact ⟨lumaF32 r2 g2 b2, by simp [lumaPixel, hr, hg, hb]⟩

theorem buildRow_some (rgba : List Nat) (w y : Nat) :
    ∀ n, n ≤ w → (∀ x, x < w → ∃ v, lumaPixel rgba w y x = some v) →
      ∃ row, buildRow rgba w y n = some row := by
  intro n
  induction n with
  | zero => exact fun _ _ => ⟨[], rfl⟩
  | succ m ih =>
    intro hle hp
    obtain ⟨px, hpx⟩ := hp (w - (m + 1)) (by omega)
    obtain ⟨rest, hrest⟩ := ih (by omega) hp
    exact ⟨px :: rest, by simp [buildRow, hpx, hrest]⟩

theorem buildRows_some (rgba : List Nat) (w h : Nat) :
    ∀ n, n ≤ h → (∀ y, y < h → ∃ row, buildRow rgba w y w = some row) →
      ∃ rows, buildRows rgba w h n = some rows := by
  intro n
  induction n with
  | zero => exact fun _ _ => ⟨[], rfl⟩
  | succ m ih =>
    intro hle hp
    obtain ⟨row, hrow⟩ := hp (h - (m + 1)) (by omega)
    obtain ⟨rest, hrest⟩ := ih (by omega) hp
    exact ⟨row :: rest, by simp [buildRows, hrow, hrest]⟩

theorem buildRow_get (rgba : List Nat) (w y : Nat) :
    ∀ n row, n ≤ w → buildRow rgba w y n = some row →
      row.length = n ∧ ∀ j, j < n → row[j]? = lumaPixel rgba w y (w - n + j) := by
  intro n
  induction n with
  | zero =>
    intro row _ h
    simp only [buildRow, Option.some.injEq] at h
    subst h
    exact ⟨rfl, fun j hj => absurd hj (by omega)⟩
  | succ m ih =>
    intro row hle h
    rw [buildRow, Option.bind_eq_some] at h
    obtain ⟨px, hpx, h2⟩ := h
    rw [Option.map_eq_some'] at h2
    obtain ⟨rest, hrest, hrow⟩ := h2
    subst hrow
    obtain ⟨hlen, hget⟩ := ih rest (by omega) hrest
    refine ⟨by simp [hlen], ?_⟩
    intro j hj
    cases j with
    | zero =>
      rw [List.getElem?_cons_zero, Nat.add_zero, hpx]
    | succ k =>
      have hk : k < m := by omega
      have heq : w - (m + 1) + (k + 1) = w - m + k := by omega
      rw [List.getElem?_cons_succ, heq]
      exact hget k hk

theorem buildRows_get (rgba : List Nat) (w h : Nat) :
    ∀ n rows, n ≤ h → buildRows rgba w h n = some rows →
      rows.length = n ∧
      ∀ i, i < n → ∃ row, rows[i]? = some row ∧
        buildRow rgba w (h - n + i) w = some row := by
  intro n
  induction n with
  | zero =>
    intro rows _ h2
    simp only [buildRows, Option.some.injEq] at h2
    subst h2
    exact ⟨rfl, fun i hi => absurd hi (by omega)⟩
  | succ m ih =>
    intro rows hle h2
    rw [buildRows, Option.bind_eq_some] at h2
    obtain ⟨row, hrow, h3⟩ := h2
    rw [Option.map_eq_some'] at h3
    obtain ⟨rest, hrest, hrows⟩ := h3
    subst hrows
    obtain ⟨hlen, hget⟩ := ih rest (by omega) hrest
    refine ⟨by simp [hlen], ?_⟩
    intro i hi
    cases i with
    | zero =>
      refine ⟨row, List.getElem?_cons_zero, ?_⟩
      rw [Nat.add_zero]
      exact hrow
    | succ k =>
      have hk : k < m := by omega
      obtain ⟨row2, hrow2, hbuild⟩ := hget k hk
      have heq : h - (m + 1) + (k + 1) = h - m + k := by omega
      refine ⟨row2, by rw [List.getElem?_cons_succ]; exact hrow2, ?_⟩
      rw [heq]
      exact hbuild

theorem rgba_to_gray_ok_pixels {rgba : List Nat} {w h : Nat} {g : List (List Nat)}
    (hok : rgba_to_gray rgba w h = .ok g) {y x : Nat} (hy : y < h) (hx : x < w) :
    ∃ row, g[y]? = some row ∧ row.length = w ∧ row[x]? = lumaPixel rgba w y x := by
  simp only [rgba_to_gray] at hok
  by_cases hlen : rgba.length ≠ (w * h * 4) % U32
  · rw [if_pos hlen] at hok
    exact absurd hok (by simp)
  · rw [if_neg hlen] at hok
    cases e : buildRows rgba w h h with
    | none => rw [e] at hok; exact absurd hok (by simp)
    | some rows =>
      rw [e] at hok
      simp only [PResult.ok.injEq] at hok
      subst hok
      obtain ⟨hlen2, hget⟩ := buildRows_get rgba w h h rows (le_refl h) e
      obtain ⟨row, hrow, hbuild⟩ := hget y hy
      have hyy : h - h + y = y := by omega
      rw [hyy] at hbuild
      obtain ⟨hrl, hrget⟩ := buildRow_get rgba w y w row (le_refl w) hbuild
      have hxx : w - w + x = x := by omega
      have := hrget x hx
      rw [hxx] at this
      exact ⟨row, hrow, hrl, this⟩

/-- C2 (amended): with the length check performed in 32-bit wraparound
arithmetic as the source does, every buffer whose length differs from the
wrapped `width * height * 4` yields an `InvalidBufferSize` error carrying
the wrapped expected length and the actual length; every buffer whose
length equals the true product `width * height * 4` (< 2^32) converts
successfully; and a successful conversion on which the detector finds no
grids yields the empty list, not an error. -/
theorem c2_buffer_contract (det : List (List Nat) → List Grid) (rgba : List Nat)
    (w h : Nat) :
    (rgba.length ≠ (w * h * 4) % U32 →
      decode_qr_from_image det rgba w h =
        .err (.convertFailed (.invalidLength ((w * h * 4) % U32) rgba.length))) ∧
    (rgba.length = w * h * 4 → w * h * 4 < U32 →
      ∃ g, rgba_to_gray rgba w h = .ok g) ∧
    (∀ g, rgba_to_gray rgba w h = .ok g → det g = [] →
      decode_qr_from_image det rgba w h = .ok []) := by
  refine ⟨?_, ?_, ?_⟩
  · intro hne
    have hgray : rgba_to_gray rgba w h =
        .err (.invalidLength ((w * h * 4) % U32) rgba.length) := by
      simp only [rgba_to_gray]
      rw [if_pos hne]
    simp [decode_qr_from_image, hgray]
  · intro hlen hlt
    have hmod : (w * h * 4) % U32 = w * h * 4 := Nat.mod_eq_of_lt hlt
    have hrow : ∀ y, y < h → ∃ row, buildRow rgba w y w = some row := by
      intro y hy
      apply buildRow_some rgba w y w (le_refl w)
      intro x hx
      apply lumaPixel_some
      have h1 : y * w + x < w * h := by
        have h2 : y * w + x < (y + 1) * w := by
          rw [Nat.add_mul, Nat.one_mul]
          omega
        have h3 : (y + 1) * w ≤ h * w := Nat.mul_le_mul_right w hy
        rw [Nat.mul_comm h w] at h3
        omega
      have h4 : (y * w + x) * 4 + 2 < w * h * 4 := by
        have := Nat.mul_le_mul_right 4 h1
        omega
      have h5 : ((y * w + x) * 4) % U32 = (y * w + x) * 4 :=
        Nat.mod_eq_of_lt (by omega)
      rw [h5, hlen]
      omega
    obtain ⟨rows, hrows⟩ := buildRows_some rgba w h h (le_refl h) hrow
    refine ⟨rows, ?_⟩
    simp only [rgba_to_gray]
    rw [if_neg (by rw [hmod]; omega), hrows]
  · intro g hg hdet
    simp [decode_qr_from_image, hg, hdet]

/-- C2 (counterexample): with `width = 2^30` and `height = 1` the u32
product `width * height * 4` wraps to 0, so the empty buffer passes the
length check although its length differs from the true product; the
conversion loop then reads out of bounds and the call aborts instead of
returning the claimed `InvalidBufferSize` error. -/
theorem c2_wraparound_cex :
    ([] : List Nat).length ≠ 1073741824 * 1 * 4 ∧
    decode_qr_from_image (fun _ => []) [] 1073741824 1 = .trap ∧
    decode_qr_from_image (fun _ => []) [] 1073741824 1 ≠
      .err (.convertFailed (.invalidLength (1073741824 * 1 * 4) 0)) := by
  decide

/-- C2 (witness): the buffer contract at concrete inputs: a 1x1 frame
with an empty buffer errors with expected 4 and actual 0; a 4-byte buffer
converts; and an empty detection yields the empty list. -/
theorem c2_witness :
    decode_qr_from_image (fun _ => []) [] 1 1 =
      .err (.convertFailed (.invalidLength ((1 * 1 * 4) % U32) 0)) ∧
    (∃ g, rgba_to_gray [0, 0, 0, 255] 1 1 = .ok g) ∧
    decode_qr_from_image (fun _ => []) [0, 0, 0, 255] 1 1 = .ok [] :=
  ⟨(c2_buffer_contract (fun _ => []) [] 1 1).1 (by decide),
   (c2_buffer_contract (fun _ => []) [0, 0, 0, 255] 1 1).2.1 (by decide) (by decide),
   (c2_buffer_contract (fun _ => []) [0, 0, 0, 255] 1 1).2.2 [[0]] (by decide) rfl⟩

/-- C4: on the spec-modelled pipeline, a frame smaller than 400 pixels in
either dimension with an empty standard pass returns the empty list
without the fallback contributing anything, and whenever the standard
pass is non-empty the result is exactly the standard pass, so the
fallback is only ever reached when the standard pass found nothing. -/
theorem c4_fallback_gate (det : Region → ℚ → List QRCodeResult) (w h : Nat) :
    ((w < 400 ∨ h < 400) → det (fullRegion w h) 1 = [] →
      detect_with_fallback det w h = []) ∧
    (det (fullRegion w h) 1 ≠ [] →
      detect_with_fallback det w h = det (fullRegion w h) 1) := by
  constructor
  · intro hsmall hstd
    simp only [detect_with_fallback, hstd, List.isEmpty_nil, if_true]
    rw [if_pos hsmall]
  · intro hstd
    have hne : (det (fullRegion w h) 1).isEmpty = false := by
      cases e : det (fullRegion w h) 1
      · exact absurd e hstd
      · rfl
    simp [detect_with_fallback, hne]

/-- C4 (witness): the gate theorem at a 100x500 frame with an
all-empty detector, and at a 10x10 frame whose standard pass finds a
code. -/
theorem c4_witness :
    detect_with_fallback (fun _ _ => []) 100 500 = [] ∧
    detect_with_fallback (fun _ _ => [⟨rstr "X", 1, []⟩]) 10 10 = [⟨rstr "X", 1, []⟩] :=
  ⟨(c4_fallback_gate (fun _ _ => []) 100 500).1 (Or.inl (by decide)) rfl,
   (c4_fallback_gate (fun _ _ => [⟨rstr "X", 1, []⟩]) 10 10).2 (by decide)⟩

/-- C9: with a successful conversion, the decode loop returns exactly the
successfully decoded grids in detector order, and when every grid fails
to decode the result is the empty list, not an error. -/
theorem c9_decode_skips_failures (det : List (List Nat) → List Grid) (rgba : List Nat)
    (w h : Nat) (g : List (List Nat)) (hok : rgba_to_gray rgba w h = .ok g) :
    decode_qr_from_image det rgba w h = .ok ((det g).filterMap gridResult) ∧
    ((∀ gr ∈ det g, gr.decoded = none) → decode_qr_from_image det rgba w h = .ok []) := by
  constructor
  · simp [decode_qr_from_image, hok]
  · intro hall
    simp only [decode_qr_from_image, hok]
    have hnil : (det g).filterMap gridResult = [] := by
      rw [List.filterMap_eq_nil_iff]
      intro a ha
      simp [gridResult, hall a ha]
    rw [hnil]

/-- C9 (witness): a detector returning one decodable and one undecodable
grid yields exactly the decodable one, in order, with no error. -/
theorem c9_witness :
    decode_qr_from_image (fun _ => [⟨[], some (2, rstr "OK")⟩, ⟨[], none⟩])
      [9, 9, 9, 255] 1 1 = .ok [⟨rstr "OK", 2, []⟩] := by
  have h := (c9_decode_skips_failures (fun _ => [⟨[], some (2, rstr "OK")⟩, ⟨[], none⟩])
    [9, 9, 9, 255] 1 1 [[lumaF32 9 9 9]] (by decide)).1
  exact h.trans (by decide)

/-- C10 (counterexample): for the pixel (R, G, B) = (0, 0, 5) the source
truncates the f32 value 0.57000000... to 0, while the claimed rounding
gives 1. -/
theorem c10_truncation_cex :
    rgba_to_gray [0, 0, 5, 255] 1 1 = .ok [[0]] ∧ lumaSpecRound 0 0 5 = 1 ∧
    (0 : Nat) ≠ 1 := by
  decide

/-- C10 (amended): every pixel of a successfully converted buffer equals
the f32 evaluation of `0.299 * R + 0.587 * G + 0.114 * B` truncated
toward zero (with saturation) to 8 bits, reading the three bytes at the
pixel's index. -/
theorem c10_pixel_formula (rgba : List Nat) (w h : Nat) (g : List (List Nat)) (y x : Nat)
    (hok : rgba_to_gray rgba w h = .ok g) (hy : y < h) (hx : x < w) :
    ∃ row r2 g2 b2,
      g[y]? = some row ∧
      rgba[((y * w + x) * 4) % U32]? = some r2 ∧
      rgba[((y * w + x) * 4) % U32 + 1]? = some g2 ∧
      rgba[((y * w + x) * 4) % U32 + 2]? = some b2 ∧
      row[x]? = some (lumaF32 r2 g2 b2) := by
  obtain ⟨row, hrow, hrl, hpx⟩ := rgba_to_gray_ok_pixels hok hy hx
  obtain ⟨v, hv⟩ : ∃ v, row[x]? = some v := ⟨_, List.getElem?_eq_getElem (by omega)⟩
  rw [hv] at hpx
  have hlp := hpx.symm
  simp only [lumaPixel, Option.bind_eq_some, Option.some.injEq] at hlp
  obtain ⟨r2, hr, g2, hg, b2, hb, hval⟩ := hlp
  exact ⟨row, r2, g2, b2, hrow, hr, hg, hb, by rw [hv, ← hval]⟩

/-- C10 (witness): the pixel-formula theorem at the 1x1 buffer
`[0, 0, 5, 255]`. -/
theorem c10_witness :
    ∃ row r2 g2 b2,
      ([[0]] : List (List Nat))[0]? = some row ∧
      [0, 0, 5, 255][((0 * 1 + 0) * 4) % U32]? = some r2 ∧
      [0, 0, 5, 255][((0 * 1 + 0) * 4) % U32 + 1]? = some g2 ∧
      [0, 0, 5, 255][((0 * 1 + 0) * 4) % U32 + 2]? = some b2 ∧
      row[0]? = some (lumaF32 r2 g2 b2) :=
  c10_pixel_formula [0, 0, 5, 255] 1 1 [[0]] 0 0 (by decide) (by decide) (by decide)

end VeloQR
